import Mathlib

/-!
Verification of the batch CSV-validation / conversion / API-submission
pipeline (src/validator.py, src/converter.py, src/api_sender.py, src/main.py).

The Python source is shallowly embedded: every function below translates one
Python function, keeping its name (minus the leading underscore, which Lean
identifiers avoid) and its control shape.  Python strings are Lean `String`s,
Python ints are `Int`/`Nat`, Python dicts are association lists with
first-occurrence lookup and in-place update, Python exceptions become
`Option`, and the two pieces of genuinely external behaviour (the `re` module
and the HTTP transport) are parameters: a regex oracle `reMatch` and a
`TransportOutcome` describing which branch of the `try/except` the transport
took and what was observed on that branch.
-/

/-! ## Python string primitives -/

/-- The whitespace characters stripped by Python `str.strip()` (ASCII range;
the embedding covers ASCII inputs). -/
def isPySpace (c : Char) : Bool :=
  c = ' ' || c = '\t' || c = '\n' || c = '\x0d' || c = '\x0b' || c = '\x0c'

/-- Python `str.strip()`: drop leading and trailing whitespace. -/
def pyStrip (s : String) : String :=
  String.mk (((s.toList.dropWhile isPySpace).reverse.dropWhile isPySpace).reverse)

/-- Helper for `pySplitChar`: split a character list at every occurrence of
`c`, keeping empty pieces, as Python `str.split(sep)` does. -/
def splitCharAux (c : Char) : List Char → List Char → List String
  | [], acc => [String.mk acc.reverse]
  | x :: xs, acc =>
    if x = c then String.mk acc.reverse :: splitCharAux c xs []
    else splitCharAux c xs (x :: acc)

/-- Python `value.split(sep)` for a one-character separator: empty pieces are
kept and the empty string splits to `[""]`. -/
def pySplitChar (s : String) (c : Char) : List String :=
  splitCharAux c s.toList []

/-- Whether `needle` is an initial segment of `hay` (character lists). -/
def isInitChars : List Char → List Char → Bool
  | [], _ => true
  | _ :: _, [] => false
  | a :: as, b :: bs => a = b && isInitChars as bs

/-- Whether `needle` occurs inside `hay` (character lists). -/
def hasSubSeg : List Char → List Char → Bool
  | [], needle => needle.isEmpty
  | h :: t, needle => isInitChars needle (h :: t) || hasSubSeg t needle

/-- Python `needle in hay` on strings: substring containment. -/
def strContains (hay needle : String) : Bool :=
  hasSubSeg hay.toList needle.toList

/-- Python `str.lower()` (ASCII). -/
def pyLower (s : String) : String := String.mk (s.toList.map Char.toLower)

/-- Python slice `s[:n]` by code points. -/
def pySlice (s : String) (n : Nat) : String := String.mk (s.toList.take n)

/-- Tail of a Python integer literal after its first digit: digits with single
underscores allowed between digits only. -/
def pyIntTail : List Char → Bool
  | [] => true
  | '_' :: rest =>
    match rest with
    | c :: rest2 => c.isDigit && pyIntTail rest2
    | [] => false
  | c :: rest => c.isDigit && pyIntTail rest

/-- A valid Python integer-literal digit run (nonempty, underscores only
between digits). -/
def pyIntDigits : List Char → Bool
  | [] => false
  | c :: rest => c.isDigit && pyIntTail rest

/-- Numeric value of a digit run, skipping underscores. -/
def natOfDigits (cs : List Char) : Nat :=
  cs.foldl (fun a c => if c = '_' then a else a * 10 + (c.toNat - 48)) 0

/-- Python `int(value)` on a string: strip whitespace, optional sign, digit
run; `none` models the `ValueError`. -/
def pyParseInt (s : String) : Option Int :=
  match (pyStrip s).toList with
  | '+' :: rest => if pyIntDigits rest then some ((natOfDigits rest : Nat) : Int) else none
  | '-' :: rest => if pyIntDigits rest then some (-((natOfDigits rest : Nat) : Int)) else none
  | rest => if pyIntDigits rest then some ((natOfDigits rest : Nat) : Int) else none

/-- Whether `p` is an initial segment of `q` (dot-path segments). -/
def initSeg : List String → List String → Bool
  | [], _ => true
  | _ :: _, [] => false
  | a :: as, b :: bs => a = b && initSeg as bs

/-- Replace every non-overlapping occurrence of the (nonempty) pattern, left
to right, on character lists; the fuel bounds the number of steps and a
fuel of the list's length always suffices, since every step consumes at
least one character. -/
def pyReplaceAux (pat rep : List Char) : Nat → List Char → List Char
  | _, [] => []
  | 0, l => l
  | fuel + 1, c :: rest =>
    if isInitChars pat (c :: rest) && !pat.isEmpty then
      rep ++ pyReplaceAux pat rep fuel (rest.drop (pat.length - 1))
    else c :: pyReplaceAux pat rep fuel rest

/-- Python `s.replace(pat, rep)` for a nonempty pattern (the only use below
replaces the literal token "{value}"). -/
def pyReplace (s pat rep : String) : String :=
  String.mk (pyReplaceAux pat.toList rep.toList s.toList.length s.toList)

example : pyStrip "  a b  " = "a b" := by decide
example : pySplitChar "a|b,c" '|' = ["a", "b,c"] := by decide
example : pySplitChar "" ',' = [""] := by decide
example : pyParseInt " -15 " = some (-15) := by decide
example : pyParseInt "abc" = none := by decide
example : pyParseInt "1_50" = some 150 := by decide
example : pyParseInt "1__5" = none := by decide

/-! ## Array splitting (validator.py `_split_array_value`, converter.py `_parse_array`) -/

/-- `Validator._split_array_value`: split by pipe or comma, trim whitespace,
drop items that strip to empty. -/
def split_array_value (value : String) : List String :=
  if value.toList.contains '|' then
    ((pySplitChar value '|').filter (fun item => pyStrip item ≠ "")).map pyStrip
  else if value.toList.contains ',' then
    ((pySplitChar value ',').filter (fun item => pyStrip item ≠ "")).map pyStrip
  else if pyStrip value ≠ "" then [pyStrip value] else []

/-- `Converter._parse_array`: split by pipe or comma, trim whitespace, drop
items that strip to empty. -/
def parse_array (value : String) : List String :=
  if value.toList.contains '|' then
    ((pySplitChar value '|').filter (fun item => pyStrip item ≠ "")).map pyStrip
  else if value.toList.contains ',' then
    ((pySplitChar value ',').filter (fun item => pyStrip item ≠ "")).map pyStrip
  else if pyStrip value ≠ "" then [pyStrip value] else []

/-! ## Nested documents (converter.py) -/

/-- A scalar produced by `Converter._convert_value`. -/
inductive LeafVal where
  | vStr (s : String)
  | vInt (n : Int)
  | vBool (b : Bool)
  | vArr (items : List String)
deriving DecidableEq

/-- A JSON-like document node: a converted scalar or a nested mapping
(association list in Python dict insertion order with unique keys). -/
inductive Doc where
  | leaf (v : LeafVal)
  | node (entries : List (String × Doc))

/-- The entry list of a mapping node. -/
abbrev Entries := List (String × Doc)

/-- Python `key in d` / `d[key]` on a dict: first-occurrence lookup. -/
def dictGet : Entries → String → Option Doc
  | [], _ => none
  | (k0, v0) :: rest, k => if k0 = k then some v0 else dictGet rest k

/-- Python `d[key] = v`: replace in place if the key exists, else append. -/
def dictSet : Entries → String → Doc → Entries
  | [], k, v => [(k, v)]
  | (k0, v0) :: rest, k, v =>
    if k0 = k then (k, v) :: rest else (k0, v0) :: dictSet rest k v

/-- `Converter._set_nested_value` on the key list `path.split('.')`: walk the
chain, creating intermediate mappings for absent keys, and set the leaf.
`none` models the `TypeError` Python raises when the walk meets an existing
value that is not a mapping (the dict is left unchanged in that case, since
the walk only mutates freshly created mappings before raising). -/
def setKeys : Entries → List String → Doc → Option Entries
  | _, [], _ => none
  | d, [k], v => some (dictSet d k v)
  | d, k :: k2 :: rest, v =>
    match dictGet d k with
    | none => (setKeys [] (k2 :: rest) v).map (fun sub => dictSet d k (.node sub))
    | some (.node sub) => (setKeys sub (k2 :: rest) v).map (fun sub2 => dictSet d k (.node sub2))
    | some _ => none

/-- Read the value stored at a (nonempty) segment address. -/
def lookupPath : Entries → List String → Option Doc
  | _, [] => none
  | d, [k] => dictGet d k
  | d, k :: k2 :: rest =>
    match dictGet d k with
    | some (.node sub) => lookupPath sub (k2 :: rest)
    | _ => none

/-- Every existing entry met along the proper prefixes of the path is a
mapping: exactly the condition under which the `_set_nested_value` walk
cannot raise. -/
def dictsAlong : Entries → List String → Bool
  | _, [] => true
  | _, [_] => true
  | d, k :: k2 :: rest =>
    match dictGet d k with
    | none => true
    | some (.node sub) => dictsAlong sub (k2 :: rest)
    | some _ => false

example : setKeys [] ["a", "b"] (.leaf (.vInt 3)) =
    some [("a", .node [("b", .leaf (.vInt 3))])] := rfl
example : setKeys [("a", .leaf (.vStr "x"))] ["a", "b"] (.leaf (.vInt 3)) = none := rfl
example : lookupPath [("a", .node [("b", .leaf (.vInt 3))])] ["a", "b"] =
    some (.leaf (.vInt 3)) := rfl

/-! ## Validator data model (validator.py) -/

/-- `ErrorType`: types of validation errors. -/
inductive ErrorType where
  | REQUIRED_FIELD
  | PATTERN_MISMATCH
  | ENUM_VALIDATION
  | TYPE_VALIDATION
  | LENGTH_VALIDATION
  | RANGE_VALIDATION
  | CONDITIONAL_REQUIRED
deriving DecidableEq

/-- `WarningType`: types of validation warnings. -/
inductive WarningType where
  | MISSING_RECOMMENDED
  | CONDITIONAL_MISSING
  | FORMAT_SUGGESTION
deriving DecidableEq

/-- `ValidationError`: one validation error. -/
structure ValidationError where
  row_number : Nat
  field : String
  error_type : ErrorType
  message : String
deriving DecidableEq

/-- `ValidationWarning`: one validation warning. -/
structure ValidationWarning where
  row_number : Nat
  field : String
  warning_type : WarningType
  message : String
deriving DecidableEq

/-- `ValidationSummary`: summary statistics (breakdown tables are dicts from
rendered key to count, in insertion order). -/
structure ValidationSummary where
  total_rows : Nat
  valid_rows : Nat
  invalid_rows : Nat
  rows_with_warnings : Nat
  error_breakdown : List (String × Nat)
  warning_breakdown : List (String × Nat)
deriving DecidableEq

/-- `ValidationResult`: complete validation results. -/
structure ValidationResult where
  errors : List ValidationError
  warnings : List ValidationWarning
  summary : ValidationSummary
  header_errors : List String := []
deriving DecidableEq

/-- `ValidationResult.is_valid`: true iff no errors and no header errors. -/
def ValidationResult.is_valid (r : ValidationResult) : Bool :=
  r.errors.isEmpty && r.header_errors.isEmpty

/-- The `conditionalRequired` descriptor of a rule.  `dependsOn` is a single
field name or a list of field names in the JSON; absent keys are `none`. -/
structure CondRule where
  dependsOn : Option (String ⊕ List String) := none
  whenNotIn : Option (List String) := none
  whenAnyPresent : Option Bool := none
  message : Option String := none
deriving DecidableEq

/-- One field's rule from validation_rules.json; every key is optional, with
the defaults applied at the use sites exactly as the Python `.get` calls do. -/
structure FieldRule where
  type' : Option String := none
  required : Option Bool := none
  pattern : Option String := none
  minLength : Option Nat := none
  maxLength : Option Nat := none
  min : Option Int := none
  max : Option Int := none
  values : Option (List String) := none
  itemPattern : Option String := none
  enumValues : Option (List String) := none
  conditionalRequired : Option CondRule := none
  description : Option String := none
deriving DecidableEq

/-- The rule file: field path to rule, in insertion order, unique keys. -/
abbrev Rules := List (String × FieldRule)

/-- One CSV row: field path to raw string value, unique keys. -/
abbrev Row := List (String × String)

/-- Python `row.get(field_name, "")`. -/
def rowGet (row : Row) (k : String) : String :=
  match row.lookup k with
  | some v => v
  | none => ""

/-- Python truthiness of an optional string (`if pattern:`): present and
nonempty. -/
def truthyStr : Option String → Option String
  | some s => if s = "" then none else some s
  | none => none

/-- A regex oracle standing for Python `re.match(pattern, value)` returning a
match (anchored at the start).  The claims below do not depend on regex
semantics, so it is a parameter of the validator. -/
abbrev ReMatch := String → String → Bool

/-- `Validator._validate_string`. -/
def validate_string (reMatch : ReMatch) (row_num : Nat) (field_name value : String)
    (rule : FieldRule) : List ValidationError :=
  (match rule.minLength with
   | some n =>
     if n ≠ 0 && value.length < n then
       [⟨row_num, field_name, .LENGTH_VALIDATION,
         field_name ++ ": Minimum length is " ++ toString n ++ " characters"⟩]
     else []
   | none => []) ++
  (match rule.maxLength with
   | some n =>
     if n ≠ 0 && value.length > n then
       [⟨row_num, field_name, .LENGTH_VALIDATION,
         field_name ++ ": Maximum length is " ++ toString n ++ " characters"⟩]
     else []
   | none => []) ++
  (match truthyStr rule.pattern with
   | some pat =>
     if !(reMatch pat value) then
       [⟨row_num, field_name, .PATTERN_MISMATCH,
         field_name ++ ": " ++ (rule.description.getD "Invalid format")⟩]
     else []
   | none => [])

/-- `Validator._validate_integer`. -/
def validate_integer (row_num : Nat) (field_name value : String)
    (rule : FieldRule) : List ValidationError :=
  match pyParseInt value with
  | none =>
    [⟨row_num, field_name, .TYPE_VALIDATION, field_name ++ ": Must be a valid integer"⟩]
  | some int_value =>
    (match rule.min with
     | some min_val =>
       if int_value < min_val then
         [⟨row_num, field_name, .RANGE_VALIDATION,
           field_name ++ ": Minimum value is " ++ toString min_val⟩]
       else []
     | none => []) ++
    (match rule.max with
     | some max_val =>
       if int_value > max_val then
         [⟨row_num, field_name, .RANGE_VALIDATION,
           field_name ++ ": Maximum value is " ++ toString max_val⟩]
       else []
     | none => [])

/-- `Validator._validate_boolean`. -/
def validate_boolean (row_num : Nat) (field_name value : String)
    (_rule : FieldRule) : List ValidationError :=
  if !(["true", "false"].contains (pyLower value)) then
    [⟨row_num, field_name, .TYPE_VALIDATION, field_name ++ ": Must be 'true' or 'false'"⟩]
  else []

/-- `Validator._validate_enum`. -/
def validate_enum (row_num : Nat) (field_name value : String)
    (rule : FieldRule) : List ValidationError :=
  let allowed_values := rule.values.getD []
  if !(allowed_values.contains value) then
    [⟨row_num, field_name, .ENUM_VALIDATION,
      field_name ++ ": Must be one of: " ++ String.intercalate ", " allowed_values⟩]
  else []

/-- `Validator._validate_array`: split, then check each item against
`itemPattern` and `enumValues` (one error per non-conforming item). -/
def validate_array (reMatch : ReMatch) (row_num : Nat) (field_name value : String)
    (rule : FieldRule) : List ValidationError :=
  let items := split_array_value value
  (match truthyStr rule.itemPattern with
   | some item_pattern =>
     (items.filter (fun item => !(reMatch item_pattern item))).map (fun item =>
       ⟨row_num, field_name, .PATTERN_MISMATCH,
         field_name ++ ": Item '" ++ item ++ "' - " ++ (rule.description.getD "Invalid format")⟩)
   | none => []) ++
  (match rule.enumValues with
   | some enum_values =>
     if enum_values ≠ [] then
       (items.filter (fun item => !(enum_values.contains item))).map (fun item =>
         ⟨row_num, field_name, .ENUM_VALIDATION,
           field_name ++ ": Item '" ++ item ++ "' must be one of: " ++
             String.intercalate ", " enum_values⟩)
     else []
   | none => [])

/-- `Validator._validate_field`: dispatch on the declared type (default
"string"); an unknown type validates nothing. -/
def validate_field (reMatch : ReMatch) (row_num : Nat) (field_name value : String)
    (rule : FieldRule) : List ValidationError :=
  let field_type := rule.type'.getD "string"
  if field_type = "string" then validate_string reMatch row_num field_name value rule
  else if field_type = "integer" then validate_integer row_num field_name value rule
  else if field_type = "boolean" then validate_boolean row_num field_name value rule
  else if field_type = "enum" then validate_enum row_num field_name value rule
  else if field_type = "array" then validate_array reMatch row_num field_name value rule
  else []

/-- `Validator._check_conditional_required`. -/
def check_conditional_required (row_num : Nat) (field_name value : String)
    (cond : CondRule) (row : Row) : List ValidationError × List ValidationWarning :=
  match cond.dependsOn with
  | some (.inl depends_on_field) =>
    let depends_on_value := pyStrip (rowGet row depends_on_field)
    let when_not_in := cond.whenNotIn.getD []
    if !(when_not_in.contains depends_on_value) then
      if value = "" then
        ([⟨row_num, field_name, .CONDITIONAL_REQUIRED,
           field_name ++ ": " ++
             (pyReplace (cond.message.getD "") "{value}" depends_on_value)⟩], [])
      else ([], [])
    else ([], [])
  | some (.inr depends_on_fields) =>
    if cond.whenAnyPresent.getD false then
      if depends_on_fields.any (fun f => pyStrip (rowGet row f) ≠ "") && value = "" then
        ([⟨row_num, field_name, .CONDITIONAL_REQUIRED,
           field_name ++ ": " ++ (cond.message.getD "Required based on other fields")⟩], [])
      else ([], [])
    else ([], [])
  | none => ([], [])

/-- The per-field body of the `Validator._validate_row` loop: conditional
check first (its errors end the field's checks), then plain required, then
the empty-optional skip, then the type-specific checks. -/
def validate_row_field (reMatch : ReMatch) (row_num : Nat) (row : Row)
    (field_name : String) (rule : FieldRule) :
    List ValidationError × List ValidationWarning :=
  let value := pyStrip (rowGet row field_name)
  let condRes :=
    match rule.conditionalRequired with
    | some cond => check_conditional_required row_num field_name value cond row
    | none => ([], [])
  if condRes.1 ≠ [] then condRes
  else if rule.required.getD false && value = "" then
    ([⟨row_num, field_name, .REQUIRED_FIELD, field_name ++ ": Field is required"⟩], condRes.2)
  else if value = "" then ([], condRes.2)
  else (validate_field reMatch row_num field_name value rule, condRes.2)

/-- `Validator._validate_row`: run the per-field body over the rule set in
order, concatenating errors and warnings. -/
def validate_row (reMatch : ReMatch) (rules : Rules) (row_num : Nat) (row : Row) :
    List ValidationError × List ValidationWarning :=
  match rules with
  | [] => ([], [])
  | (field_name, rule) :: rest =>
    let fieldRes := validate_row_field reMatch row_num row field_name rule
    let restRes := validate_row reMatch rest row_num row
    (fieldRes.1 ++ restRes.1, fieldRes.2 ++ restRes.2)

/-! ## Summary and row-set validation (validator.py) -/

/-- Python `message.split(': ', 1)[1] if ': ' in message else message`: the
message remainder after the first colon-space. -/
def splitAfterColon (msg : String) : String :=
  match msg.splitOn ": " with
  | _ :: p1 :: rest => String.intercalate ": " (p1 :: rest)
  | _ => msg

/-- Python `breakdown[key] = breakdown.get(key, 0) + 1` on a dict. -/
def bumpKey (m : List (String × Nat)) (k : String) : List (String × Nat) :=
  if (m.lookup k).isSome then
    m.map (fun p => if p.1 = k then (p.1, p.2 + 1) else p)
  else m ++ [(k, 1)]

/-- `Validator._build_summary`. -/
def build_summary (total_rows : Nat) (rows_with_errors rows_with_warnings : Finset Nat)
    (errors : List ValidationError) (warnings : List ValidationWarning) :
    ValidationSummary :=
  { total_rows := total_rows
    valid_rows := total_rows - rows_with_errors.card
    invalid_rows := rows_with_errors.card
    rows_with_warnings := rows_with_warnings.card
    error_breakdown :=
      errors.foldl (fun m e => bumpKey m (e.field ++ ": " ++ splitAfterColon e.message)) []
    warning_breakdown :=
      warnings.foldl (fun m w => bumpKey m (w.field ++ ": " ++ splitAfterColon w.message)) [] }

/-- The enumeration loop of `Validator.validate_rows`: starting at row number
`idx`, collect all errors, all warnings, and the sets of row numbers that had
at least one error / at least one warning. -/
def validate_rows_go (reMatch : ReMatch) (rules : Rules) :
    Nat → List Row → List ValidationError × List ValidationWarning × Finset Nat × Finset Nat
  | _, [] => ([], [], ∅, ∅)
  | idx, row :: rest =>
    let rowRes := validate_row reMatch rules idx row
    let restRes := validate_rows_go reMatch rules (idx + 1) rest
    ((if rowRes.1.isEmpty then [] else rowRes.1) ++ restRes.1,
     (if rowRes.2.isEmpty then [] else rowRes.2) ++ restRes.2.1,
     (if rowRes.1.isEmpty then restRes.2.2.1 else insert idx restRes.2.2.1),
     (if rowRes.2.isEmpty then restRes.2.2.2 else insert idx restRes.2.2.2))

/-- `Validator.validate_rows`: validate every row (1-indexed), build the
summary; the result's `header_errors` list is left at its default `[]`. -/
def validate_rows (reMatch : ReMatch) (rules : Rules) (rows : List Row) :
    ValidationResult :=
  let go := validate_rows_go reMatch rules 1 rows
  { errors := go.1
    warnings := go.2.1
    summary := build_summary rows.length go.2.2.1 go.2.2.2 go.1 go.2.1 }

/-! ## Header validation (validator.py) -/

/-- Inner step of the Levenshtein dynamic program: given the previous row,
the current character of `s1` and the characters of `s2`, produce the rest of
the current row, threading the row's last value. -/
def levNext (c1 : Char) : List Nat → List Char → Nat → List Nat
  | p0 :: p1 :: prest, c2 :: cs, cur =>
    let insertions := p1 + 1
    let deletions := cur + 1
    let substitutions := p0 + (if c1 = c2 then 0 else 1)
    let v := min insertions (min deletions substitutions)
    v :: levNext c1 (p1 :: prest) cs v
  | _, _, _ => []

/-- Outer loop of the Levenshtein dynamic program over the characters of
`s1`, carrying the enumeration index and the previous row. -/
def levGo (l2 : List Char) : List Char → Nat → List Nat → List Nat
  | [], _, prev => prev
  | c1 :: cs, i, prev => levGo l2 cs (i + 1) ((i + 1) :: levNext c1 prev l2 (i + 1))

/-- The dynamic program of `Validator._levenshtein_distance`, assuming
`l1` is the longer list. -/
def levCompute (l1 l2 : List Char) : Nat :=
  if l2.isEmpty then l1.length
  else (levGo l2 l1 0 (List.range (l2.length + 1))).getLastD 0

/-- `Validator._levenshtein_distance` (the recursive swap made explicit). -/
def levenshtein_distance (s1 s2 : String) : Nat :=
  if s1.length < s2.length then levCompute s2.toList s1.toList
  else levCompute s1.toList s2.toList

/-- `Validator._find_similar_fields`: similar known field names (substring
containment either way, or edit distance at most 2), first `maxSuggestions`
of them.  The Python code iterates a `set`; the embedding iterates the rule
file's key order. -/
def find_similar_fields (header : String) (known_fields : List String)
    (maxSuggestions : Nat) : List String :=
  let header_lower := pyLower header
  (known_fields.filter (fun f =>
    let field_lower := pyLower f
    strContains field_lower header_lower || strContains header_lower field_lower ||
      levenshtein_distance header_lower field_lower ≤ 2)).take maxSuggestions

/-- `Validator.validate_headers`: missing required headers, then unknown
headers (with a near-match suggestion when one exists). -/
def validate_headers (rules : Rules) (csv_headers : List String) : List String :=
  (rules.filterMap (fun p =>
    if p.2.required.getD false && !(csv_headers.contains p.1) then
      some ("Missing required header: '" ++ p.1 ++ "'")
    else none)) ++
  (csv_headers.filterMap (fun header =>
    if header ≠ "" && !((rules.map Prod.fst).contains header) then
      some (match find_similar_fields header (rules.map Prod.fst) 1 with
        | s0 :: _ => "Unknown header: '" ++ header ++ "' (did you mean '" ++ s0 ++ "'?)"
        | [] => "Unknown header: '" ++ header ++ "'")
    else none)) 

/-- The gate in main.py step 6: conversion proceeds only when the row-level
result is valid and the separately returned header-error list is empty
(`if not result.is_valid or header_errors: sys.exit(1)`). -/
def proceedToConversion (result : ValidationResult) (header_errors : List String) : Bool :=
  result.is_valid && header_errors.isEmpty

example : levenshtein_distance "kitten" "sitting" = 3 := by decide
example : levenshtein_distance "abc" "abc" = 0 := by decide
example : levenshtein_distance "abc" "" = 3 := by decide
example : validate_headers [("name", {required := some true})] ["bogus"] =
    ["Missing required header: 'name'", "Unknown header: 'bogus'"] := by decide

/-! ## Converter (converter.py) -/

/-- The `{}` rule `Converter._convert_row` uses for fields absent from the
rule file. -/
def emptyRule : FieldRule := {}

/-- `Converter._convert_value`: coerce a (nonempty, stripped) string by the
rule's declared type.  `none` models the `ValueError` of `int(value)` on a
non-integer string, which propagates out of the converter. -/
def convert_value (value : String) (rule : FieldRule) : Option Doc :=
  let field_type := rule.type'.getD "string"
  if field_type = "integer" then (pyParseInt value).map (fun n => .leaf (.vInt n))
  else if field_type = "boolean" then some (.leaf (.vBool (pyLower value = "true")))
  else if field_type = "array" then some (.leaf (.vArr (parse_array value)))
  else some (.leaf (.vStr value))

/-- `Converter._set_nested_value` proper: split the dot path and walk. -/
def set_nested_value (obj : Entries) (path : String) (value : Doc) : Option Entries :=
  setKeys obj (pySplitChar path '.') value

/-- The loop of `Converter._convert_row` over the row's fields, threading the
result document; `none` models an escaping exception. -/
def convert_row_go (rules : Rules) : Entries → List (String × String) → Option Entries
  | acc, [] => some acc
  | acc, (field_name, raw) :: rest =>
    let value := pyStrip raw
    if value = "" then convert_row_go rules acc rest
    else
      match convert_value value ((rules.lookup field_name).getD emptyRule) with
      | none => none
      | some converted =>
        match set_nested_value acc field_name converted with
        | none => none
        | some acc2 => convert_row_go rules acc2 rest

/-- `Converter._convert_row`: build the nested document of one row, skipping
empty values. -/
def convert_row (rules : Rules) (row : Row) : Option Entries :=
  convert_row_go rules [] row

example : convert_row [("a.b", {type' := some "integer"})] [("a.b", " 7 "), ("c", "")] =
    some [("a", .node [("b", .leaf (.vInt 7))])] := rfl

/-! ## API sender (api_sender.py) -/

/-- `SubmissionResult`: the per-record outcome dictionary built by
`_send_single_request` (absent dict keys are `none`). -/
structure SubmissionResult where
  record_index : Nat
  request_id : String
  timestamp : String
  request_body : Doc
  success : Bool
  status_code : Option Int := none
  response_body : Option Doc := none
  error : Option String := none

/-- Which branch of `_send_single_request`'s `try/except` the transport took,
with the data observed on that branch: a completed HTTP response (status,
raw text, parsed body — used only when the text is nonblank), or one of the
four exception handlers. -/
inductive TransportOutcome where
  | response (status : Int) (text : String) (body : Doc)
  | timeout
  | connectionError
  | requestException (msg : String)
  | otherException (msg : String)

/-- `_send_single_request`: always returns a `SubmissionResult`; 2xx is
success, non-2xx keeps the status and a 500-character error excerpt, every
exception handler clears the status code and writes its category message.
The fresh UUID and timestamp are inputs, as is the transport outcome. -/
def send_single_request (record : Doc) (record_index : Nat)
    (_api_url _auth_header : String) (_rate_limit_delay : Rat)
    (request_id timestamp : String) (outcome : TransportOutcome) : SubmissionResult :=
  let result : SubmissionResult :=
    { record_index := record_index, request_id := request_id,
      timestamp := timestamp, request_body := record, success := false }
  match outcome with
  | .response status text body =>
    let result :=
      { result with
        status_code := some status
        response_body := some (if text = "" then .node [] else body)
        success := decide (200 ≤ status ∧ status < 300) }
    if result.success then result
    else { result with error := some ("HTTP " ++ toString status ++ ": " ++ pySlice text 500) }
  | .timeout =>
    { result with status_code := none, error := some "Request timeout (30s)" }
  | .connectionError =>
    { result with status_code := none, error := some "Connection error - unable to reach API" }
  | .requestException msg =>
    { result with status_code := none, error := some ("Request error: " ++ msg) }
  | .otherException msg =>
    { result with status_code := none, error := some ("Unexpected error: " ++ msg) }

/-- The retry filter of `APISender.send_batch`: bounds-check each requested
1-based index against the original record list, keeping the selected records
and their original indexes; out-of-range indexes are skipped. -/
def filterRetryRecords (all_records : List Doc) (retry_indexes : List Nat) :
    List Doc × List Nat :=
  retry_indexes.foldl (fun acc idx =>
    if 1 ≤ idx && idx ≤ all_records.length then
      (acc.1 ++ [all_records.getD (idx - 1) (.node [])], acc.2 ++ [idx])
    else acc) ([], [])

/-- The outcome of one `send_batch` run: the final success and failure counts,
the returned duration, and the (record, record-number) pairs actually handed
to `_send_single_request`, in dispatch order. -/
structure BatchOutcome where
  successes : Nat
  failures : Nat
  duration : Rat
  attempts : List (Doc × Nat)

/-- The test-then-bulk phase of `APISender.send_batch` on the selected
records and their record numbers.  `send` classifies each dispatched
(record, index) pair as success or failure (the per-pair outcome is fixed,
so the unordered completion collection of the pool only permutes results and
the counts are well defined); `confirm` is the interactive gate's answer;
`elapsed` is the measured bulk-phase duration.  Declining the gate persists
the test result and returns with duration 0.0. -/
def send_batch_core (records : List Doc) (record_index_map : List Nat)
    (send : Doc → Nat → Bool) (confirm : Bool) (elapsed : Rat) : BatchOutcome :=
  if records.length > 1 then
    let test_record := records.headD (.node [])
    let test_index := record_index_map.headD 0
    let testOk := send test_record test_index
    if confirm then
      let args_list := (records.drop 1).zip (record_index_map.drop 1)
      let results := args_list.map (fun p => send p.1 p.2)
      { successes := (if testOk then 1 else 0) + results.count true
        failures := (if testOk then 0 else 1) + results.count false
        duration := elapsed
        attempts := (test_record, test_index) :: args_list }
    else
      { successes := if testOk then 1 else 0
        failures := if testOk then 0 else 1
        duration := 0
        attempts := [(test_record, test_index)] }
  else
    let args_list := records.zip record_index_map
    let results := args_list.map (fun p => send p.1 p.2)
    { successes := results.count true
      failures := results.count false
      duration := elapsed
      attempts := args_list }

/-- `APISender.send_batch`: in retry mode (a truthy, i.e. nonempty, index
list) select records by bounds-checked 1-based index keeping their original
numbers; otherwise number all records 1..n.  An empty selection returns
(0, 0, 0.0) before any request. -/
def send_batch (all_records : List Doc) (retry_indexes : List Nat)
    (send : Doc → Nat → Bool) (confirm : Bool) (elapsed : Rat) : BatchOutcome :=
  let sel :=
    if !retry_indexes.isEmpty then filterRetryRecords all_records retry_indexes
    else (all_records, List.range' 1 all_records.length)
  if sel.1.isEmpty then { successes := 0, failures := 0, duration := 0, attempts := [] }
  else send_batch_core sel.1 sel.2 send confirm elapsed

/-- `extract_failed_indexes`: the record indexes of a failure file's entries,
sorted. -/
def extract_failed_indexes (failed_records : List SubmissionResult) : List Nat :=
  (failed_records.map (fun r => r.record_index)).mergeSort (fun a b => a ≤ b)

/-- A concrete regex oracle for closed instances (none of them reach a
pattern check). -/
def reMatchTrue : ReMatch := fun _ _ => true

/-- The spec scenario's conditional-requirement descriptor: depends on
`config.kybLevel`, required unless it is "basic". -/
def taxIdCond : CondRule :=
  { dependsOn := some (Sum.inl "config.kybLevel")
    whenNotIn := some ["basic"]
    message := some "required unless basic" }

/-- The spec scenario's conditionally-required string rule. -/
def taxIdRule : FieldRule :=
  { type' := some "string"
    conditionalRequired := some taxIdCond }

/-- The spec scenario's rule file as loaded. -/
def taxIdRules : Rules := [("business.taxId", taxIdRule)]

/-- The same rule with the field additionally marked plain `required`. -/
def taxIdRequiredRule : FieldRule :=
  { type' := some "string"
    required := some true
    conditionalRequired := some taxIdCond }

/-- A one-field rule file with a required string field, for closed
instances. -/
def nameRule : FieldRule := { type' := some "string", required := some true }

/-! ## Shared list lemmas -/

/-- Filtering after mapping is mapping after filtering the composed
predicate. -/
theorem map_filter_comm {α β : Type} (f : α → β) (p : β → Bool) (l : List α) :
    (l.map f).filter p = (l.filter (fun a => p (f a))).map f := by
  induction l with
  | nil => rfl
  | cons a t ih =>
    simp only [List.map_cons, List.filter_cons]
    by_cases h : p (f a) = true
    · simp [h, ih]
    · simp [h, Bool.not_eq_true] at *
      simp [h, ih]

/-! ## C8 -/

/-- Claim C8: the Validator's array splitter and the Converter's array parser
are extensionally equal — on every input string they return the same items. -/
theorem split_array_value_eq_parse_array (value : String) :
    split_array_value value = parse_array value := rfl

/-! ## C2 -/

/-- Claim C2: array splitting follows the pipe-over-comma delimiter
precedence: a string containing a pipe splits on pipes, else one containing a
comma splits on commas, else the trimmed string is the single item (or
nothing when it trims to empty); pieces are trimmed and empty pieces are
dropped.  The four spec examples are included. -/
theorem array_split_delimiter_precedence (s : String) :
    (split_array_value s =
      if s.toList.contains '|' then
        ((pySplitChar s '|').map pyStrip).filter (fun x => x ≠ "")
      else if s.toList.contains ',' then
        ((pySplitChar s ',').map pyStrip).filter (fun x => x ≠ "")
      else if pyStrip s = "" then [] else [pyStrip s]) ∧
    split_array_value "a|b,c" = ["a", "b,c"] ∧
    split_array_value "a,b" = ["a", "b"] ∧
    split_array_value "solo" = ["solo"] ∧
    split_array_value "" = [] := by
  refine ⟨?_, by decide, by decide, by decide, by decide⟩
  unfold split_array_value
  simp only [map_filter_comm]
  by_cases h3 : pyStrip s = "" <;> simp [h3]

/-! ## C5 -/

/-- Claim C5: for a non-empty value of an integer field, a parse failure
yields exactly the one type error (and no range error), and a successful
parse checks the min and max inclusive bounds independently, one range error
per violated bound. -/
theorem integer_validation_classification (row_num : Nat) (field_name value : String)
    (rule : FieldRule) (hne : value ≠ "") :
    (pyParseInt value = none →
      validate_integer row_num field_name value rule =
        [⟨row_num, field_name, .TYPE_VALIDATION, field_name ++ ": Must be a valid integer"⟩]) ∧
    (∀ n : Int, pyParseInt value = some n →
      validate_integer row_num field_name value rule =
        (match rule.min with
         | some min_val =>
           if n < min_val then
             [⟨row_num, field_name, .RANGE_VALIDATION,
               field_name ++ ": Minimum value is " ++ toString min_val⟩]
           else []
         | none => []) ++
        (match rule.max with
         | some max_val =>
           if n > max_val then
             [⟨row_num, field_name, .RANGE_VALIDATION,
               field_name ++ ": Maximum value is " ++ toString max_val⟩]
           else []
         | none => []) ∧
      (validate_integer row_num field_name value rule).countP
          (fun e => e.error_type = .TYPE_VALIDATION) = 0) := by
  constructor
  · intro h
    simp [validate_integer, h]
  · intro n h
    refine ⟨by simp [validate_integer, h], ?_⟩
    simp only [validate_integer, h, List.countP_append]
    rcases rule.min with _ | m <;> rcases rule.max with _ | M <;>
      simp <;> split <;> simp

/-- Witness for C5 at the spec scenario: with rule `{min 0, max 100}` the
input "150" yields exactly one (max) range error, and "abc" exactly one type
error. -/
theorem integer_validation_classification_witness :
    validate_integer 1 "n" "150" {type' := some "integer", min := some 0, max := some 100} =
      [⟨1, "n", .RANGE_VALIDATION, "n: Maximum value is 100"⟩] ∧
    validate_integer 1 "n" "abc" {type' := some "integer", min := some 0, max := some 100} =
      [⟨1, "n", .TYPE_VALIDATION, "n: Must be a valid integer"⟩] := by
  constructor
  · have h := (integer_validation_classification 1 "n" "150"
      {type' := some "integer", min := some 0, max := some 100} (by decide)).2 150 (by decide)
    rw [h.1]
    decide
  · have h := (integer_validation_classification 1 "n" "abc"
      {type' := some "integer", min := some 0, max := some 100} (by decide)).1 (by decide)
    rw [h]
    decide

/-! ## C3 -/

/-- Claim C3: a single per-record send always returns a `SubmissionResult`
(the embedding is a total function of the transport outcome; no exception
escapes).  Success is exactly an HTTP status in [200, 300), with the parsed
body (empty object when the body text is blank); a non-2xx response keeps
the status code and an error excerpt of at most 500 characters; each of the
timeout / connection / request / generic exception handlers clears the status
code and writes its category message with success false. -/
theorem send_single_request_classification (record : Doc) (record_index : Nat)
    (api_url auth_header : String) (delay : Rat) (request_id timestamp : String)
    (outcome : TransportOutcome) :
    let r := send_single_request record record_index api_url auth_header delay
      request_id timestamp outcome
    r.record_index = record_index ∧ r.request_id = request_id ∧
    r.request_body = record ∧
    (match outcome with
     | .response status text body =>
       r.success = decide (200 ≤ status ∧ status < 300) ∧
       r.status_code = some status ∧
       r.response_body = some (if text = "" then Doc.node [] else body) ∧
       r.error = (if 200 ≤ status ∧ status < 300 then none
                  else some ("HTTP " ++ toString status ++ ": " ++ pySlice text 500)) ∧
       (pySlice text 500).length ≤ 500
     | .timeout =>
       r.success = false ∧ r.status_code = none ∧ r.response_body = none ∧
       r.error = some "Request timeout (30s)"
     | .connectionError =>
       r.success = false ∧ r.status_code = none ∧ r.response_body = none ∧
       r.error = some "Connection error - unable to reach API"
     | .requestException msg =>
       r.success = false ∧ r.status_code = none ∧ r.response_body = none ∧
       r.error = some ("Request error: " ++ msg)
     | .otherException msg =>
       r.success = false ∧ r.status_code = none ∧ r.response_body = none ∧
       r.error = some ("Unexpected error: " ++ msg)) := by
  have hlen : ∀ text : String, (pySlice text 500).length ≤ 500 := by
    intro text
    show (String.mk (text.toList.take 500)).length ≤ 500
    have : (String.mk (text.toList.take 500)).length = (text.toList.take 500).length := rfl
    rw [this, List.length_take]
    exact min_le_left _ _
  cases outcome with
  | response status text body =>
    by_cases hs : 200 ≤ status ∧ status < 300 <;>
      simp [send_single_request, hs, hlen]
  | timeout => simp [send_single_request]
  | connectionError => simp [send_single_request]
  | requestException msg => simp [send_single_request]
  | otherException msg => simp [send_single_request]

/-! ## Lemmas on nested-document insertion -/

/-- After `d[k] = v`, looking up `k` finds `v`. -/
theorem dictGet_dictSet_self (d : Entries) (k : String) (v : Doc) :
    dictGet (dictSet d k v) k = some v := by
  induction d with
  | nil => simp [dictSet, dictGet]
  | cons p rest ih =>
    obtain ⟨k0, v0⟩ := p
    by_cases h : k0 = k
    · simp [dictSet, h, dictGet]
    · simp [dictSet, h, dictGet, ih]

/-- After `d[k] = v`, looking up any other key is unchanged. -/
theorem dictGet_dictSet_ne (d : Entries) (k k' : String) (v : Doc) (h : k' ≠ k) :
    dictGet (dictSet d k v) k' = dictGet d k' := by
  have hk : ¬(k = k') := fun e => h e.symm
  induction d with
  | nil => simp [dictSet, dictGet, hk]
  | cons p rest ih =>
    obtain ⟨k0, v0⟩ := p
    by_cases h0 : k0 = k
    · subst h0
      simp [dictSet, dictGet, hk]
    · by_cases h1 : k0 = k'
      · subst h1
        simp [dictSet, h0, dictGet]
      · simp [dictSet, h0, dictGet, h1, ih]

/-- Looking up any address in the empty mapping gives nothing. -/
theorem lookupPath_nil (q : List String) : lookupPath [] q = none := by
  cases q with
  | nil => rfl
  | cons k t => cases t <;> simp [lookupPath, dictGet]

/-- A fresh (or safe) walk succeeds: when every existing entry along the
path's proper prefixes is a mapping, `setKeys` returns a document. -/
theorem setKeys_isSome (p : List String) (v : Doc) :
    ∀ d : Entries, p ≠ [] → dictsAlong d p = true → (setKeys d p v).isSome := by
  induction p with
  | nil => intro d h _; exact absurd rfl h
  | cons k tail ih =>
    intro d _ ha
    cases tail with
    | nil => simp [setKeys]
    | cons k2 rest =>
      cases hg : dictGet d k with
      | none =>
        have h2 : dictsAlong ([] : Entries) (k2 :: rest) = true := by
          cases rest <;> simp [dictsAlong, dictGet]
        obtain ⟨s, hs⟩ := Option.isSome_iff_exists.mp (ih [] (by simp) h2)
        simp [setKeys, hg, hs]
      | some doc =>
        cases doc with
        | leaf lv => simp [dictsAlong, hg] at ha
        | node sub =>
          have h2 : dictsAlong sub (k2 :: rest) = true := by
            simpa [dictsAlong, hg] using ha
          obtain ⟨s, hs⟩ := Option.isSome_iff_exists.mp (ih sub (by simp) h2)
          simp [setKeys, hg, hs]

/-- After a successful insertion, the leaf at the path is the inserted
value. -/
theorem lookupPath_setKeys_self (p : List String) (v : Doc) :
    ∀ d d' : Entries, setKeys d p v = some d' → lookupPath d' p = some v := by
  induction p with
  | nil => intro d d' h; simp [setKeys] at h
  | cons k tail ih =>
    intro d d' h
    cases tail with
    | nil =>
      simp [setKeys] at h
      subst h
      simp [lookupPath, dictGet_dictSet_self]
    | cons k2 rest =>
      cases hg : dictGet d k with
      | none =>
        cases hs : setKeys [] (k2 :: rest) v with
        | none => simp [setKeys, hg, hs] at h
        | some sub =>
          simp [setKeys, hg, hs] at h
          subst h
          simpa [lookupPath, dictGet_dictSet_self] using ih [] sub hs
      | some doc =>
        cases doc with
        | leaf lv => simp [setKeys, hg] at h
        | node sub =>
          cases hs : setKeys sub (k2 :: rest) v with
          | none => simp [setKeys, hg, hs] at h
          | some sub2 =>
            simp [setKeys, hg, hs] at h
            subst h
            simpa [lookupPath, dictGet_dictSet_self] using ih sub sub2 hs

/-- Every list is an initial segment of itself. -/
theorem initSeg_refl (l : List String) : initSeg l l = true := by
  induction l with
  | nil => rfl
  | cons a t ih => simp [initSeg, ih]

/-- A lookup whose address starts with a different key ignores a `dictSet`
at that key. -/
theorem lookupPath_dictSet_ne (d : Entries) (k k' : String) (x : Doc)
    (q' : List String) (h : k' ≠ k) :
    lookupPath (dictSet d k x) (k' :: q') = lookupPath d (k' :: q') := by
  cases q' with
  | nil => simp [lookupPath, dictGet_dictSet_ne d k k' x h]
  | cons a b => simp [lookupPath, dictGet_dictSet_ne d k k' x h]

/-- A successful `setKeys` on a path headed by `k` only rewrites the entry
at `k`. -/
theorem setKeys_shape (d : Entries) (k : String) (tail : List String) (v : Doc)
    (d' : Entries) (h : setKeys d (k :: tail) v = some d') :
    ∃ x, d' = dictSet d k x := by
  cases tail with
  | nil =>
    simp [setKeys] at h
    exact ⟨v, h.symm⟩
  | cons k2 rest =>
    cases hg : dictGet d k with
    | none =>
      cases hs : setKeys [] (k2 :: rest) v with
      | none => simp [setKeys, hg, hs] at h
      | some sub => simp [setKeys, hg, hs] at h; exact ⟨Doc.node sub, h.symm⟩
    | some doc =>
      cases doc with
      | leaf lv => simp [setKeys, hg] at h
      | node sub =>
        cases hs : setKeys sub (k2 :: rest) v with
        | none => simp [setKeys, hg, hs] at h
        | some sub2 => simp [setKeys, hg, hs] at h; exact ⟨Doc.node sub2, h.symm⟩

/-- Frame property of a successful insertion: an address that is neither an
initial segment of the path nor an extension of it reads the same value
before and after. -/
theorem lookupPath_setKeys_frame (p : List String) (v : Doc) :
    ∀ d d' q, setKeys d p v = some d' → initSeg q p = false → initSeg p q = false →
      lookupPath d' q = lookupPath d q := by
  induction p with
  | nil => intro d d' q h _ _; simp [setKeys] at h
  | cons k tail ih =>
    intro d d' q h hqp hpq
    cases q with
    | nil => simp [initSeg] at hqp
    | cons k' q' =>
      by_cases hkk : k' = k
      · subst hkk
        cases tail with
        | nil => simp [initSeg] at hpq
        | cons k2 rest =>
          cases q' with
          | nil => simp [initSeg] at hqp
          | cons k2' q'' =>
            have hqp2 : initSeg (k2' :: q'') (k2 :: rest) = false := by
              simpa [initSeg] using hqp
            have hpq2 : initSeg (k2 :: rest) (k2' :: q'') = false := by
              simpa [initSeg] using hpq
            cases hg : dictGet d k' with
            | none =>
              cases hs : setKeys [] (k2 :: rest) v with
              | none => simp [setKeys, hg, hs] at h
              | some sub =>
                simp [setKeys, hg, hs] at h
                subst h
                rw [show lookupPath (dictSet d k' (Doc.node sub)) (k' :: k2' :: q'') =
                      lookupPath sub (k2' :: q'') from by
                    simp [lookupPath, dictGet_dictSet_self]]
                rw [show lookupPath d (k' :: k2' :: q'') = none from by
                    simp [lookupPath, hg]]
                rw [ih [] sub (k2' :: q'') hs hqp2 hpq2]
                exact lookupPath_nil _
            | some doc =>
              cases doc with
              | leaf lv => simp [setKeys, hg] at h
              | node sub =>
                cases hs : setKeys sub (k2 :: rest) v with
                | none => simp [setKeys, hg, hs] at h
                | some sub2 =>
                  simp [setKeys, hg, hs] at h
                  subst h
                  rw [show lookupPath (dictSet d k' (Doc.node sub2)) (k' :: k2' :: q'') =
                        lookupPath sub2 (k2' :: q'') from by
                      simp [lookupPath, dictGet_dictSet_self]]
                  rw [show lookupPath d (k' :: k2' :: q'') = lookupPath sub (k2' :: q'') from by
                      simp [lookupPath, hg]]
                  exact ih sub sub2 (k2' :: q'') hs hqp2 hpq2
      · obtain ⟨x, rfl⟩ := setKeys_shape d k tail v d' h
        exact lookupPath_dictSet_ne d k k' x q' hkk

/-- After inserting a non-mapping value at `p`, every strict extension of
`p` reads nothing. -/
theorem lookupPath_setKeys_extend (p : List String) (v : Doc) :
    ∀ d d' q, setKeys d p v = some d' → initSeg p q = true → q ≠ p →
      (∀ es, v ≠ Doc.node es) → lookupPath d' q = none := by
  induction p with
  | nil => intro d d' q h _ _ _; simp [setKeys] at h
  | cons k tail ih =>
    intro d d' q h hpq hne hv
    cases q with
    | nil => simp [initSeg] at hpq
    | cons k' q' =>
      have hkk : k = k' := by
        by_contra hc
        simp [initSeg, hc] at hpq
      subst hkk
      cases tail with
      | nil =>
        have hq' : q' ≠ [] := fun e => hne (by rw [e])
        simp [setKeys] at h
        subst h
        cases q' with
        | nil => exact absurd rfl hq'
        | cons a b =>
          cases hv2 : v with
          | leaf lv =>
            subst hv2
            simp [lookupPath, dictGet_dictSet_self]
          | node es => exact absurd hv2 (hv es)
      | cons k2 rest =>
        have hpq2 : initSeg (k2 :: rest) q' = true := by simpa [initSeg] using hpq
        have hne2 : q' ≠ k2 :: rest := fun e => hne (by rw [e])
        cases q' with
        | nil => simp [initSeg] at hpq2
        | cons a b =>
          cases hg : dictGet d k with
          | none =>
            cases hs : setKeys [] (k2 :: rest) v with
            | none => simp [setKeys, hg, hs] at h
            | some sub =>
              simp [setKeys, hg, hs] at h
              subst h
              have hrec := ih [] sub (a :: b) hs hpq2 hne2 hv
              simpa [lookupPath, dictGet_dictSet_self] using hrec
          | some doc =>
            cases doc with
            | leaf lv => simp [setKeys, hg] at h
            | node sub =>
              cases hs : setKeys sub (k2 :: rest) v with
              | none => simp [setKeys, hg, hs] at h
              | some sub2 =>
                simp [setKeys, hg, hs] at h
                subst h
                have hrec := ih sub sub2 (a :: b) hs hpq2 hne2 hv
                simpa [lookupPath, dictGet_dictSet_self] using hrec

/-- An address that does not lie on the path's prefix chain and read nothing
before a successful insertion of a non-mapping value still reads nothing. -/
theorem lookupPath_setKeys_none (p : List String) (v : Doc) (d d' : Entries)
    (q : List String) (h : setKeys d p v = some d') (hq : initSeg q p = false)
    (hv : ∀ es, v ≠ Doc.node es) (h0 : lookupPath d q = none) :
    lookupPath d' q = none := by
  by_cases hpq : initSeg p q = true
  · by_cases hqp : q = p
    · subst hqp
      rw [initSeg_refl q] at hq
      exact absurd hq (by simp)
    · exact lookupPath_setKeys_extend p v d d' q h hpq hqp hv
  · rw [lookupPath_setKeys_frame p v d d' q h hq (by simpa using hpq)]
    exact h0

/-- `splitCharAux` always returns at least one piece. -/
theorem splitCharAux_ne_nil (c : Char) : ∀ l acc, splitCharAux c l acc ≠ [] := by
  intro l
  induction l with
  | nil => intro acc; simp [splitCharAux]
  | cons x xs ih =>
    intro acc
    by_cases h : x = c <;> simp [splitCharAux, h, ih]

/-- A Python split is never the empty list. -/
theorem pySplitChar_ne_nil (s : String) (c : Char) : pySplitChar s c ≠ [] :=
  splitCharAux_ne_nil c s.toList []

/-! ## C10 -/

/-- Claim C10 counterexample: the claim quantifies over every document and
path, but an address strictly below the path is not a prefix segment of the
path and still loses its value — inserting the scalar 2 at path "a" over
`{"a": {"b": 1}}` destroys the value at address ["a", "b"]. -/
theorem set_nested_value_frame_cex :
    set_nested_value [("a", Doc.node [("b", Doc.leaf (.vInt 1))])] "a" (Doc.leaf (.vInt 2)) =
      some [("a", Doc.leaf (.vInt 2))] ∧
    initSeg ["a", "b"] (pySplitChar "a" '.') = false ∧
    lookupPath [("a", Doc.node [("b", Doc.leaf (.vInt 1))])] ["a", "b"] =
      some (Doc.leaf (.vInt 1)) ∧
    lookupPath [("a", Doc.leaf (.vInt 2))] ["a", "b"] = none :=
  ⟨rfl, rfl, rfl, rfl⟩

/-- Claim C10 (amended): provided every existing value along the path's
proper prefixes is a mapping (otherwise `_set_nested_value` raises a
`TypeError` instead of producing a document), insertion succeeds, the leaf
at the path equals the inserted value, and every address that is neither an
initial segment of the path nor an extension of it reads exactly the value
it had before; addresses strictly below the path may lose their values. -/
theorem set_nested_value_frame (d : Entries) (path : String) (v : Doc)
    (hAlong : dictsAlong d (pySplitChar path '.') = true) :
    ∃ d', set_nested_value d path v = some d' ∧
      lookupPath d' (pySplitChar path '.') = some v ∧
      ∀ q, initSeg q (pySplitChar path '.') = false →
        initSeg (pySplitChar path '.') q = false →
        lookupPath d' q = lookupPath d q := by
  obtain ⟨d', hd'⟩ := Option.isSome_iff_exists.mp
    (setKeys_isSome (pySplitChar path '.') v d (pySplitChar_ne_nil path '.') hAlong)
  exact ⟨d', hd', lookupPath_setKeys_self _ v d d' hd',
    fun q hq hpq => lookupPath_setKeys_frame _ v d d' q hd' hq hpq⟩

/-- Witness for C10 at a concrete document and two-segment path. -/
theorem set_nested_value_frame_witness :
    ∃ d', set_nested_value [("x", Doc.leaf (.vStr "1"))] "a.b" (Doc.leaf (.vInt 7)) = some d' ∧
      lookupPath d' (pySplitChar "a.b" '.') = some (Doc.leaf (.vInt 7)) ∧
      ∀ q, initSeg q (pySplitChar "a.b" '.') = false →
        initSeg (pySplitChar "a.b" '.') q = false →
        lookupPath d' q = lookupPath [("x", Doc.leaf (.vStr "1"))] q :=
  set_nested_value_frame [("x", Doc.leaf (.vStr "1"))] "a.b" (Doc.leaf (.vInt 7)) (by rfl)

/-! ## Lemmas on the per-field validators -/

/-- Every error from the string validator carries the row number and field
name it was called with. -/
theorem validate_string_mem (reMatch : ReMatch) (rn : Nat) (fn value : String)
    (rule : FieldRule) :
    ∀ e ∈ validate_string reMatch rn fn value rule, e.row_number = rn ∧ e.field = fn := by
  intro e he
  unfold validate_string at he
  simp only [List.mem_append] at he
  rcases he with (he | he) | he <;>
    (split at he <;> (try split at he) <;> simp_all)

/-- Every error from the integer validator carries the row number and field
name it was called with. -/
theorem validate_integer_mem (rn : Nat) (fn value : String) (rule : FieldRule) :
    ∀ e ∈ validate_integer rn fn value rule, e.row_number = rn ∧ e.field = fn := by
  intro e he
  unfold validate_integer at he
  split at he
  · simp_all
  · simp only [List.mem_append] at he
    rcases he with he | he <;>
      (split at he <;> (try split at he) <;> simp_all)

/-- Every error from the boolean validator carries the row number and field
name it was called with. -/
theorem validate_boolean_mem (rn : Nat) (fn value : String) (rule : FieldRule) :
    ∀ e ∈ validate_boolean rn fn value rule, e.row_number = rn ∧ e.field = fn := by
  intro e he
  unfold validate_boolean at he
  split at he <;> simp_all

/-- Every error from the enum validator carries the row number and field
name it was called with. -/
theorem validate_enum_mem (rn : Nat) (fn value : String) (rule : FieldRule) :
    ∀ e ∈ validate_enum rn fn value rule, e.row_number = rn ∧ e.field = fn := by
  intro e he
  simp only [validate_enum] at he
  split at he <;> simp_all

/-- Every error from the array validator carries the row number and field
name it was called with. -/
theorem validate_array_mem (reMatch : ReMatch) (rn : Nat) (fn value : String)
    (rule : FieldRule) :
    ∀ e ∈ validate_array reMatch rn fn value rule, e.row_number = rn ∧ e.field = fn := by
  intro e he
  unfold validate_array at he
  simp only [List.mem_append] at he
  rcases he with he | he <;>
    (split at he <;> (try split at he) <;> simp_all [List.mem_map] <;>
      (obtain ⟨item, _, rfl⟩ := he; simp))

/-- Every error from the type dispatcher carries the row number and field
name it was called with. -/
theorem validate_field_mem (reMatch : ReMatch) (rn : Nat) (fn value : String)
    (rule : FieldRule) :
    ∀ e ∈ validate_field reMatch rn fn value rule, e.row_number = rn ∧ e.field = fn := by
  intro e he
  simp only [validate_field] at he
  split_ifs at he
  · exact validate_string_mem reMatch rn fn value rule e he
  · exact validate_integer_mem rn fn value rule e he
  · exact validate_boolean_mem rn fn value rule e he
  · exact validate_enum_mem rn fn value rule e he
  · exact validate_array_mem reMatch rn fn value rule e he
  · simp at he

/-- The conditional check never produces warnings. -/
theorem check_conditional_required_warns (rn : Nat) (fn value : String)
    (cond : CondRule) (row : Row) :
    (check_conditional_required rn fn value cond row).2 = [] := by
  unfold check_conditional_required
  rcases cond.dependsOn with _ | (d | ds) <;> simp <;> split_ifs <;> rfl

/-- Every error from the conditional check carries the row number and field
name it was called with. -/
theorem check_conditional_required_mem (rn : Nat) (fn value : String)
    (cond : CondRule) (row : Row) :
    ∀ e ∈ (check_conditional_required rn fn value cond row).1,
      e.row_number = rn ∧ e.field = fn := by
  intro e he
  rcases hdo : cond.dependsOn with _ | d | ds <;>
    simp only [check_conditional_required, hdo] at he
  · simp at he
  · split_ifs at he <;> simp_all
  · split_ifs at he <;> simp_all

/-- Every error from the per-field body carries the row number and field
name it was called with. -/
theorem validate_row_field_mem (reMatch : ReMatch) (rn : Nat) (row : Row)
    (fn : String) (rule : FieldRule) :
    ∀ e ∈ (validate_row_field reMatch rn row fn rule).1,
      e.row_number = rn ∧ e.field = fn := by
  intro e he
  rcases hc : rule.conditionalRequired with _ | cond <;>
    simp only [validate_row_field, hc] at he <;>
    split_ifs at he <;>
      first
        | exact check_conditional_required_mem rn fn _ cond row e he
        | exact validate_field_mem reMatch rn fn _ rule e he
        | simp_all

/-- The per-field body never produces warnings. -/
theorem validate_row_field_warns (reMatch : ReMatch) (rn : Nat) (row : Row)
    (fn : String) (rule : FieldRule) :
    (validate_row_field reMatch rn row fn rule).2 = [] := by
  unfold validate_row_field
  rcases hc : rule.conditionalRequired with _ | cond <;>
    simp [check_conditional_required_warns] <;> split_ifs <;>
      simp [check_conditional_required_warns]

/-- Every error of a validated row carries that row's number, and a field
name drawn from the rule file's keys. -/
theorem validate_row_mem (reMatch : ReMatch) (rules : Rules) (rn : Nat) (row : Row) :
    ∀ e ∈ (validate_row reMatch rules rn row).1,
      e.row_number = rn ∧ e.field ∈ rules.map Prod.fst := by
  induction rules with
  | nil => intro e he; simp [validate_row] at he
  | cons p rest ih =>
    intro e he
    obtain ⟨g, r0⟩ := p
    simp only [validate_row, List.mem_append] at he
    rcases he with he | he
    · obtain ⟨h1, h2⟩ := validate_row_field_mem reMatch rn row g r0 e he
      exact ⟨h1, by simp [h2]⟩
    · obtain ⟨h1, h2⟩ := ih e he
      exact ⟨h1, by simp [h2]⟩

/-- A validated row never produces warnings (no code path emits one). -/
theorem validate_row_warns (reMatch : ReMatch) (rules : Rules) (rn : Nat) (row : Row) :
    (validate_row reMatch rules rn row).2 = [] := by
  induction rules with
  | nil => rfl
  | cons p rest ih =>
    obtain ⟨g, r0⟩ := p
    simp [validate_row, validate_row_field_warns, ih]

/-- With distinct rule keys, the errors a whole-row validation reports for
one field are exactly the errors of that field's per-field body. -/
theorem validate_row_filter_field (reMatch : ReMatch) (rules : Rules) (rn : Nat)
    (row : Row) (fn : String) (rule : FieldRule) (hmem : (fn, rule) ∈ rules)
    (hnodup : (rules.map Prod.fst).Nodup) :
    (validate_row reMatch rules rn row).1.filter (fun e => e.field = fn) =
      (validate_row_field reMatch rn row fn rule).1 := by
  induction rules with
  | nil => cases hmem
  | cons p rest ih =>
    obtain ⟨g, r0⟩ := p
    simp only [validate_row, List.filter_append]
    simp only [List.map_cons, List.nodup_cons] at hnodup
    rcases List.mem_cons.mp hmem with heq | hmem2
    · obtain ⟨rfl, rfl⟩ := Prod.mk.inj heq
      have h1 : (validate_row_field reMatch rn row fn rule).1.filter
          (fun e => e.field = fn) = (validate_row_field reMatch rn row fn rule).1 := by
        rw [List.filter_eq_self]
        intro e he
        simp [(validate_row_field_mem reMatch rn row fn rule e he).2]
      have h2 : (validate_row reMatch rest rn row).1.filter (fun e => e.field = fn) = [] := by
        rw [List.filter_eq_nil]
        intro e he
        have hf := (validate_row_mem reMatch rest rn row e he).2
        simp only [decide_eq_true_eq]
        intro hc
        rw [hc] at hf
        exact hnodup.1 hf
      rw [h1, h2, List.append_nil]
    · have hfn2 : fn ∈ rest.map Prod.fst := by
        simpa using List.mem_map_of_mem Prod.fst hmem2
      have hgfn : ¬(g = fn) := fun e => hnodup.1 (e ▸ hfn2)
      have h1 : (validate_row_field reMatch rn row g r0).1.filter
          (fun e => e.field = fn) = [] := by
        rw [List.filter_eq_nil]
        intro e he
        have hf := (validate_row_field_mem reMatch rn row g r0 e he).2
        simp only [decide_eq_true_eq]
        intro hc
        rw [hf] at hc
        exact hgfn hc
      rw [h1, List.nil_append]
      exact ih hmem2 hnodup.2

/-! ## C1 -/

/-- Claim C1 counterexample: the claim says an empty target field yields no
error whenever the dependency value is in `whenNotIn`, for every rule
carrying a single-dependency `conditionalRequired`; but for such a rule that
is also plain `required`, the row `{config.kybLevel: "basic",
business.taxId: ""}` still gets a required-field error. -/
theorem cond_required_single_dep_cex :
    pyStrip (rowGet [("config.kybLevel", "basic"), ("business.taxId", "")]
      "config.kybLevel") ∈ ["basic"] ∧
    pyStrip (rowGet [("config.kybLevel", "basic"), ("business.taxId", "")]
      "business.taxId") = "" ∧
    (validate_row reMatchTrue [("business.taxId", taxIdRequiredRule)] 1
        [("config.kybLevel", "basic"), ("business.taxId", "")]).1 =
      [⟨1, "business.taxId", .REQUIRED_FIELD, "business.taxId: Field is required"⟩] := by
  refine ⟨by decide, by decide, by decide⟩

/-- Claim C1 (amended): for a rule with a single-dependency
`conditionalRequired` and an empty (trimmed) target value: when the
dependency's trimmed value is not in `whenNotIn`, the row's validation
reports for this field exactly one conditional-required error, built from
the rule's message with "{value}" replaced by the dependency value — and
nothing else (in particular no plain required-field error); when the
dependency value is in `whenNotIn`, the field reports no error provided the
rule does not also mark it plain `required` (a plain-required rule still
reports its required-field error then). -/
theorem cond_required_single_dep (reMatch : ReMatch) (rules : Rules) (rn : Nat)
    (row : Row) (fn : String) (rule : FieldRule) (cond : CondRule) (d : String)
    (hmem : (fn, rule) ∈ rules) (hnodup : (rules.map Prod.fst).Nodup)
    (hcond : rule.conditionalRequired = some cond)
    (hdep : cond.dependsOn = some (Sum.inl d))
    (hempty : pyStrip (rowGet row fn) = "") :
    (pyStrip (rowGet row d) ∉ cond.whenNotIn.getD [] →
      (validate_row reMatch rules rn row).1.filter (fun e => e.field = fn) =
        [⟨rn, fn, .CONDITIONAL_REQUIRED,
          fn ++ ": " ++ pyReplace (cond.message.getD "") "{value}"
            (pyStrip (rowGet row d))⟩]) ∧
    (pyStrip (rowGet row d) ∈ cond.whenNotIn.getD [] →
      rule.required.getD false = false →
      (validate_row reMatch rules rn row).1.filter (fun e => e.field = fn) = []) := by
  have hfilter := validate_row_filter_field reMatch rules rn row fn rule hmem hnodup
  constructor
  · intro hni
    rw [hfilter]
    simp [validate_row_field, hcond, hempty, check_conditional_required, hdep, hni]
  · intro hin hreq
    rw [hfilter]
    simp [validate_row_field, hcond, hempty, check_conditional_required, hdep, hin, hreq]

/-- Witness for C1 at the spec scenario: `{config.kybLevel: "enhanced",
business.taxId: ""}` gets exactly the one conditional-required error, and
`{config.kybLevel: "basic", business.taxId: ""}` none. -/
theorem cond_required_single_dep_witness :
    (validate_row reMatchTrue taxIdRules 1
        [("config.kybLevel", "enhanced"), ("business.taxId", "")]).1.filter
      (fun e => e.field = "business.taxId") =
        [⟨1, "business.taxId", .CONDITIONAL_REQUIRED,
          "business.taxId: required unless basic"⟩] ∧
    (validate_row reMatchTrue taxIdRules 1
        [("config.kybLevel", "basic"), ("business.taxId", "")]).1.filter
      (fun e => e.field = "business.taxId") = [] := by
  constructor
  · have h := (cond_required_single_dep reMatchTrue taxIdRules 1
      [("config.kybLevel", "enhanced"), ("business.taxId", "")]
      "business.taxId" taxIdRule taxIdCond
      "config.kybLevel" (by decide) (by decide) (by decide) (by decide) (by decide)).1
      (by decide)
    rw [h]
    decide
  · have h := (cond_required_single_dep reMatchTrue taxIdRules 1
      [("config.kybLevel", "basic"), ("business.taxId", "")]
      "business.taxId" taxIdRule taxIdCond
      "config.kybLevel" (by decide) (by decide) (by decide) (by decide) (by decide)).2
      (by decide) (by decide)
    exact h

/-! ## Converter lemmas -/

/-- A converted scalar is never a mapping node (integers, booleans, arrays
and strings all become leaves). -/
theorem convert_value_not_node (value : String) (rule : FieldRule) (cv : Doc)
    (h : convert_value value rule = some cv) : ∀ es, cv ≠ Doc.node es := by
  intro es hc
  subst hc
  simp only [convert_value] at h
  split_ifs at h
  · cases hp : pyParseInt value with
    | none => rw [hp] at h; exact Option.noConfusion h
    | some n => rw [hp] at h; simp at h
  · simp at h
  · simp at h
  · simp at h

/-- Conversion invariant: an address that no nonempty field's path extends
(or equals) and that reads nothing in the accumulator still reads nothing in
the finished document. -/
theorem convert_row_go_lookup_none (rules : Rules) (q : List String) :
    ∀ (row : List (String × String)) (acc doc : Entries),
      (∀ p ∈ row, pyStrip p.2 ≠ "" → initSeg q (pySplitChar p.1 '.') = false) →
      convert_row_go rules acc row = some doc →
      lookupPath acc q = none → lookupPath doc q = none := by
  intro row
  induction row with
  | nil =>
    intro acc doc _ h h0
    simp [convert_row_go] at h
    subst h
    exact h0
  | cons p rest ih =>
    intro acc doc hq h h0
    obtain ⟨fname, raw⟩ := p
    by_cases hv : pyStrip raw = ""
    · simp only [convert_row_go, hv, if_pos] at h
      exact ih acc doc (fun p hp hne => hq p (List.mem_cons_of_mem _ hp) hne) h h0
    · cases hcv : convert_value (pyStrip raw) ((rules.lookup fname).getD emptyRule) with
      | none => simp [convert_row_go, hv, hcv] at h
      | some cv =>
        cases hsk : set_nested_value acc fname cv with
        | none => simp [convert_row_go, hv, hcv, hsk] at h
        | some acc2 =>
          simp only [convert_row_go, hv, hcv, hsk, if_neg] at h
          have hq1 : initSeg q (pySplitChar fname '.') = false :=
            hq (fname, raw) (List.mem_cons_self _ _) hv
          have h1 : lookupPath acc2 q = none :=
            lookupPath_setKeys_none (pySplitChar fname '.') cv acc acc2 q hsk hq1
              (convert_value_not_node _ _ _ hcv) h0
          exact ih acc2 doc (fun p hp hne => hq p (List.mem_cons_of_mem _ hp) hne) h h1

/-! ## C7 -/

/-- Claim C7: a field whose trimmed row value is empty and which is neither
plain required nor conditionally required in this row produces no validation
output at all for that field, and — as long as no other nonempty field's
dot path extends or equals this field's path — the converted document has no
key at the field's path. -/
theorem empty_optional_field_no_error_no_key (reMatch : ReMatch) (crules : Rules)
    (rn : Nat) (row : Row) (fn : String) (rule : FieldRule)
    (hempty : pyStrip (rowGet row fn) = "")
    (hreq : rule.required.getD false = false)
    (hcond : ∀ cond, rule.conditionalRequired = some cond →
      (check_conditional_required rn fn (pyStrip (rowGet row fn)) cond row).1 = [])
    (hpre : ∀ p ∈ row, pyStrip p.2 ≠ "" →
      initSeg (pySplitChar fn '.') (pySplitChar p.1 '.') = false) :
    validate_row_field reMatch rn row fn rule = ([], []) ∧
    ∀ doc, convert_row crules row = some doc →
      lookupPath doc (pySplitChar fn '.') = none := by
  constructor
  · rcases hc : rule.conditionalRequired with _ | cond
    · simp [validate_row_field, hc, hempty, hreq]
    · have h1 := hcond cond hc
      rw [hempty] at h1
      have h2 := check_conditional_required_warns rn fn "" cond row
      simp [validate_row_field, hc, hempty, h1, h2, hreq]
  · intro doc hdoc
    exact convert_row_go_lookup_none crules (pySplitChar fn '.') row [] doc hpre hdoc
      (lookupPath_nil _)

/-- Witness for C7: in the row `{a: "1", b.c: ""}` with rule file
`{a: integer, b.c: string}`, the optional empty field `b.c` reports nothing
and the converted document has no key at path b.c. -/
theorem empty_optional_field_no_error_no_key_witness :
    validate_row_field reMatchTrue 1 [("a", "1"), ("b.c", "")] "b.c"
      {type' := some "string"} = ([], []) ∧
    ∀ doc, convert_row [("a", {type' := some "integer"}), ("b.c", {type' := some "string"})]
        [("a", "1"), ("b.c", "")] = some doc →
      lookupPath doc (pySplitChar "b.c" '.') = none := by
  have h := empty_optional_field_no_error_no_key reMatchTrue
    [("a", {type' := some "integer"}), ("b.c", {type' := some "string"})] 1
    [("a", "1"), ("b.c", "")] "b.c" {type' := some "string"}
    (by decide) (by decide)
    (by intro cond hcc; exact Option.noConfusion hcc)
    (by decide)
  exact h

/-! ## C9 -/

/-- The row numbers of a nonempty error list that all carry `idx` form the
singleton set `{idx}`. -/
theorem toFinset_row_numbers_const (l : List ValidationError) (idx : Nat)
    (hne : l ≠ []) (hall : ∀ e ∈ l, e.row_number = idx) :
    (l.map (fun e => e.row_number)).toFinset = {idx} := by
  induction l with
  | nil => cases hne rfl
  | cons a t ih =>
    simp only [List.map_cons, List.toFinset_cons]
    rw [hall a (List.mem_cons_self _ _)]
    by_cases ht : t = []
    · subst ht; simp
    · rw [ih ht (fun e he => hall e (List.mem_cons_of_mem _ he))]
      simp

/-- The enumeration loop's bookkeeping: the set of rows with errors is
exactly the set of distinct row numbers in the collected error list, the
warning list is empty, and so is the set of rows with warnings. -/
theorem validate_rows_go_sets (reMatch : ReMatch) (rules : Rules) :
    ∀ (idx : Nat) (rows : List Row),
      ((validate_rows_go reMatch rules idx rows).1.map
        (fun e => e.row_number)).toFinset =
          (validate_rows_go reMatch rules idx rows).2.2.1 ∧
      (validate_rows_go reMatch rules idx rows).2.1 = [] ∧
      (validate_rows_go reMatch rules idx rows).2.2.2 = ∅ := by
  intro idx rows
  induction rows generalizing idx with
  | nil => simp [validate_rows_go]
  | cons row rest ih =>
    obtain ⟨ih1, ih2, ih3⟩ := ih (idx + 1)
    have hw : (validate_row reMatch rules idx row).2.isEmpty = true := by
      simp [validate_row_warns]
    by_cases he : (validate_row reMatch rules idx row).1.isEmpty
    · simp only [validate_rows_go, he, hw, if_pos]
      refine ⟨?_, ih2, ih3⟩
      simpa using ih1
    · simp only [validate_rows_go, he, hw, if_pos, if_neg, Bool.false_eq_true,
        not_false_iff]
      refine ⟨?_, ih2, ih3⟩
      rw [List.map_append, List.toFinset_append, ih1]
      rw [toFinset_row_numbers_const (validate_row reMatch rules idx row).1 idx
        (by simpa [List.isEmpty_iff] using he)
        (fun e hee => (validate_row_mem reMatch rules idx row e hee).1)]
      ext a
      simp

/-- Claim C9: the summary built by validateRows counts the input rows, the
distinct row numbers in the error list (a row counts once however many of
its fields failed), their complement, and the distinct row numbers in the
warning list. -/
theorem summary_counts (reMatch : ReMatch) (rules : Rules) (rows : List Row) :
    (validate_rows reMatch rules rows).summary.total_rows = rows.length ∧
    (validate_rows reMatch rules rows).summary.invalid_rows =
      ((validate_rows reMatch rules rows).errors.map
        (fun e => e.row_number)).toFinset.card ∧
    (validate_rows reMatch rules rows).summary.valid_rows =
      (validate_rows reMatch rules rows).summary.total_rows -
        (validate_rows reMatch rules rows).summary.invalid_rows ∧
    (validate_rows reMatch rules rows).summary.rows_with_warnings =
      ((validate_rows reMatch rules rows).warnings.map
        (fun w => w.row_number)).toFinset.card := by
  obtain ⟨h1, h2, h3⟩ := validate_rows_go_sets reMatch rules 1 rows
  refine ⟨rfl, ?_, rfl, ?_⟩
  · simp only [validate_rows, build_summary, h1]
  · simp only [validate_rows, build_summary, h2, h3]
    simp

/-! ## C4 -/

/-- Claim C4 counterexample: header errors exist for the header list
["bogus"] against a rule file requiring "name", yet the ValidationResult the
validator produces for a clean row set is valid — `validate_rows` never
stores header errors into its result, so their presence does not make that
result invalid. -/
theorem header_errors_leave_result_valid_cex :
    validate_headers [("name", nameRule)] ["bogus"] =
      ["Missing required header: 'name'", "Unknown header: 'bogus'"] ∧
    (validate_rows reMatchTrue [("name", nameRule)] [[("name", "x")]]).is_valid = true ∧
    (validate_rows reMatchTrue [("name", nameRule)] [[("name", "x")]]).header_errors = [] := by
  refine ⟨by decide, by decide, by decide⟩

/-- Claim C4 (amended): a ValidationResult is valid iff both its row-error
list and its header-error list are empty; however, the result produced by
`validate_rows` always carries an empty header-error list, so a header error
makes the overall run invalid only through the caller's separate gate in
main.py (which refuses to proceed whenever the header-error list is
nonempty), not through the returned result's own validity. -/
theorem is_valid_iff_and_header_gate (reMatch : ReMatch) (rules : Rules)
    (rows : List Row) (r : ValidationResult) (hdr : List String) :
    (r.is_valid = true ↔ (r.errors = [] ∧ r.header_errors = [])) ∧
    (validate_rows reMatch rules rows).header_errors = [] ∧
    (hdr ≠ [] → proceedToConversion r hdr = false) := by
  refine ⟨?_, rfl, ?_⟩
  · simp [ValidationResult.is_valid]
  · intro h
    simp [proceedToConversion, h]

/-- Witness for C4: the gate refuses to proceed at a concrete nonempty
header-error list. -/
theorem is_valid_iff_and_header_gate_witness :
    proceedToConversion (validate_rows reMatchTrue [("name", nameRule)] [])
      ["Unknown header: 'bogus'"] = false :=
  (is_valid_iff_and_header_gate reMatchTrue [("name", nameRule)] []
    (validate_rows reMatchTrue [("name", nameRule)] [])
    ["Unknown header: 'bogus'"]).2.2 (by decide)

/-! ## C6 -/

/-- Characterization of the retry filter's fold, for any accumulator. -/
theorem filterRetryRecords_go (all : List Doc) (r : List Nat) :
    ∀ acc : List Doc × List Nat,
      (r.foldl (fun acc idx =>
        if 1 ≤ idx && idx ≤ all.length then
          (acc.1 ++ [all.getD (idx - 1) (.node [])], acc.2 ++ [idx])
        else acc) acc) =
      (acc.1 ++ (r.filter (fun i => 1 ≤ i && i ≤ all.length)).map
          (fun i => all.getD (i - 1) (.node [])),
        acc.2 ++ r.filter (fun i => 1 ≤ i && i ≤ all.length)) := by
  induction r with
  | nil => intro acc; simp
  | cons i t ih =>
    intro acc
    by_cases h : (1 ≤ i && i ≤ all.length) = true
    · rw [List.foldl_cons, if_pos h, ih]
      simp [h]
    · rw [List.foldl_cons, if_neg h, ih]
      simp [h]

/-- The retry filter keeps exactly the in-range indexes, in order, pairing
each with the record it selects from the original list. -/
theorem filterRetryRecords_spec (all : List Doc) (r : List Nat) :
    filterRetryRecords all r =
      ((r.filter (fun i => 1 ≤ i && i ≤ all.length)).map
        (fun i => all.getD (i - 1) (.node [])),
        r.filter (fun i => 1 ≤ i && i ≤ all.length)) := by
  unfold filterRetryRecords
  rw [filterRetryRecords_go]
  simp

/-- Zipping a mapped list with the original pairs every element with its
image. -/
theorem zip_map_self {α β : Type} (f : α → β) (l : List α) :
    (l.map f).zip l = l.map (fun a => (f a, a)) := by
  induction l with
  | nil => rfl
  | cons a t ih => simp [ih]

/-- Claim C6: in retry mode (nonempty requested index list), each index
outside [1, n] is skipped, each in-range index i selects original record i
and keeps i as its record number, the dispatched attempts (when the gate is
confirmed) are exactly those selections in order, and an empty selection
returns (0 successes, 0 failures, 0.0 seconds) with no attempt made. -/
theorem retry_selection (all_records : List Doc) (retry_indexes : List Nat)
    (send : Doc → Nat → Bool) (confirm : Bool) (elapsed : Rat)
    (hne : retry_indexes ≠ []) :
    ((filterRetryRecords all_records retry_indexes).2 =
      retry_indexes.filter (fun i => 1 ≤ i && i ≤ all_records.length)) ∧
    ((filterRetryRecords all_records retry_indexes).1.zip
        (filterRetryRecords all_records retry_indexes).2 =
      (retry_indexes.filter (fun i => 1 ≤ i && i ≤ all_records.length)).map
        (fun i => (all_records.getD (i - 1) (.node []), i))) ∧
    (confirm = true →
      (send_batch all_records retry_indexes send confirm elapsed).attempts =
        (retry_indexes.filter (fun i => 1 ≤ i && i ≤ all_records.length)).map
          (fun i => (all_records.getD (i - 1) (.node []), i))) ∧
    ((filterRetryRecords all_records retry_indexes).1 = [] →
      send_batch all_records retry_indexes send confirm elapsed =
        ⟨0, 0, 0, []⟩) := by
  have hfR := filterRetryRecords_spec all_records retry_indexes
  have hne2 : retry_indexes.isEmpty = false := by
    cases retry_indexes with
    | nil => cases hne rfl
    | cons a t => rfl
  refine ⟨by rw [hfR], ?_, ?_, ?_⟩
  · rw [hfR]
    exact zip_map_self _ _
  · intro hconf
    subst hconf
    cases hLc : retry_indexes.filter (fun i => 1 ≤ i && i ≤ all_records.length) with
    | nil => simp [send_batch, hne2, hfR, hLc]
    | cons i0 L2 =>
      cases L2 with
      | nil => simp [send_batch, hne2, hfR, hLc, send_batch_core]
      | cons i1 L3 =>
        simp [send_batch, hne2, hfR, hLc, send_batch_core, zip_map_self]
  · intro hsel
    rw [hfR] at hsel
    have hL : retry_indexes.filter (fun i => 1 ≤ i && i ≤ all_records.length) = [] := by
      simpa using hsel
    simp [send_batch, hne2, hfR, hL]

/-- Witness for C6: against a 2-record file, the request [9999, 2] skips the
out-of-range 9999 and sends record 2 under its original number 2. -/
theorem retry_selection_witness :
    (send_batch [Doc.node [], Doc.node [("a", Doc.leaf (.vStr "x"))]] [9999, 2]
      (fun _ _ => true) true 1).attempts =
      [(Doc.node [("a", Doc.leaf (.vStr "x"))], 2)] := by
  have h := (retry_selection [Doc.node [], Doc.node [("a", Doc.leaf (.vStr "x"))]]
    [9999, 2] (fun _ _ => true) true 1 (by decide)).2.2.1 rfl
  rw [h]
  rfl
